import Mathlib

/-!
Verification of the ants-vs-bees turn-based combat engine
(`src/ants.ts`, `src/game.ts`) against its natural-language specification.

Shallow embedding notes:
* JavaScript objects linked by mutual references are modelled arena-style:
  a `Place` (one Location of the tunnel grid) stores the insects it holds
  by value, and a bee carries a numeric identity `idB` standing for
  JavaScript object identity (`Array.prototype.indexOf` uses `===`); the
  game never stores the same bee object twice, so identities are assumed
  unique where a proof needs it.
* JavaScript `number` armor/damage/food values are modelled as `Int`
  (the game only ever adds and subtracts integers).
* A method that would throw a `TypeError` inside the engine's `try` block
  is modelled by the explicit error result its `catch` handler produces.
-/

/-- Status of a `Bee` (`Bee.status` in `ants.ts`): `undefined`, `'stuck'`
or `'cold'`, set by StickyLeaf / IcyLeaf throws and cleared at the end of
every `Bee.act()`. -/
inductive BeeStatus where
  | none
  | stuck
  | cold
deriving DecidableEq, Repr, Inhabited

/-- State of one `Bee` object (`class Bee` in `ants.ts`): armor, damage
and status. `idB` models JavaScript object identity. -/
structure BeeS where
  idB : Nat
  armorB : Int
  damageB : Int
  statusB : BeeStatus
deriving DecidableEq, Repr, Inhabited

/-- The concrete `Ant` subclasses of `ants.ts`. -/
inductive AntKind where
  | Grower
  | Thrower
  | Eater
  | Scuba
  | Guard
deriving DecidableEq, Repr, Inhabited

/-- State of one `Ant` object: the fields of `Ant` (`armor`, `foodCost`,
`boost`) together with the `EaterAnt`-specific fields `turnsEating` and
`stomach` (the stomach is itself a `Place` in the source, but only its
bee list is ever used). -/
structure AntS where
  kind : AntKind
  armorA : Int
  foodCost : Int
  boost : Option String
  turnsEating : Nat
  stomach : List BeeS
deriving DecidableEq, Repr, Inhabited

/-- Builds a freshly constructed ant of the given kind with the armor and
food cost hard-coded in each subclass constructor of `ants.ts`:
Grower (1,1), Thrower (1,4), Eater (2,4), Scuba (1,5), Guard (2,4). -/
def newAnt (k : AntKind) : AntS :=
  match k with
  | .Grower  => { kind := .Grower, armorA := 1, foodCost := 1, boost := Option.none,
                  turnsEating := 0, stomach := [] }
  | .Thrower => { kind := .Thrower, armorA := 1, foodCost := 4, boost := Option.none,
                  turnsEating := 0, stomach := [] }
  | .Eater   => { kind := .Eater, armorA := 2, foodCost := 4, boost := Option.none,
                  turnsEating := 0, stomach := [] }
  | .Scuba   => { kind := .Scuba, armorA := 1, foodCost := 5, boost := Option.none,
                  turnsEating := 0, stomach := [] }
  | .Guard   => { kind := .Guard, armorA := 2, foodCost := 4, boost := Option.none,
                  turnsEating := 0, stomach := [] }

/-- State of one `Place` (one Location of the grid, `class Place` in
`game.ts`): the regular defender slot `ant`, the guard slot `guard`, and
the ordered attacker list `bees` (insertion order = arrival order, since
`addBee` pushes onto the end). The `exit`/`entrance` links are not stored
here; they are recovered from a Place's position in the colony grid. -/
structure PlaceS where
  ant : Option AntS
  guard : Option AntS
  bees : List BeeS
deriving DecidableEq, Repr, Inhabited

namespace PlaceS

/-- `Place.getAnt()`: the guard if present, else the regular occupant. -/
def getAnt (p : PlaceS) : Option AntS :=
  match p.guard with
  | some g => some g
  | Option.none => p.ant

/-- `Place.getGuardedAnt()`: the regular occupant. -/
def getGuardedAnt (p : PlaceS) : Option AntS := p.ant

/-- `Place.addAnt(ant)`: a Guard goes into the guard slot if it is empty,
any other ant into the regular slot if it is empty; otherwise the call
returns `false` and changes nothing. -/
def addAnt (p : PlaceS) (a : AntS) : Bool × PlaceS :=
  if a.kind = AntKind.Guard then
    match p.guard with
    | Option.none => (true, { p with guard := some a })
    | some _ => (false, p)
  else
    match p.ant with
    | Option.none => (true, { p with ant := some a })
    | some _ => (false, p)

/-- `Place.removeAnt()`: clears and returns the guard slot if occupied,
otherwise clears and returns the regular slot. -/
def removeAnt (p : PlaceS) : Option AntS × PlaceS :=
  match p.guard with
  | some g => (some g, { p with guard := Option.none })
  | Option.none => (p.ant, { p with ant := Option.none })

/-- Removes the first bee whose identity is `i`, leaving the list
unchanged when none matches: `Place.removeBee(bee)` computed via
`bees.indexOf(bee)` (strict object identity) followed by `splice`. -/
def removeFirstById : List BeeS → Nat → List BeeS
  | [], _ => []
  | x :: xs, i => if x.idB = i then xs else x :: removeFirstById xs i

/-- `Place.removeBee(bee)`. -/
def removeBee (p : PlaceS) (b : BeeS) : PlaceS :=
  { p with bees := removeFirstById p.bees b.idB }

/-- `Place.addBee(bee)`: pushes onto the end of the attacker list. -/
def addBee (p : PlaceS) (b : BeeS) : PlaceS :=
  { p with bees := p.bees ++ [b] }

/-- Replaces the bee with identity `b.idB` by `b` wherever it occurs:
models mutating a bee object held by a Place's list. -/
def updateBee (l : List BeeS) (b : BeeS) : List BeeS :=
  l.map (fun x => if x.idB = b.idB then b else x)

end PlaceS

/-- The loop body of `Place.getClosestBee(maxDistance, minDistance)`:
`chain` lists the bee lists of the Places reached by successive
`entrance` links (index = remaining hops), `dist` is the current hop
distance. The source loop runs while the Place exists and
`dist <= maxDistance`, returning `p.bees[0]` at the first hop with
`dist >= minDistance` and a non-empty bee list. -/
def getClosestBeeAux (maxD minD : Nat) : Nat → List (List BeeS) → Option BeeS
  | _, [] => Option.none
  | dist, bs :: rest =>
    if maxD < dist then Option.none
    else if minD ≤ dist ∧ bs ≠ [] then bs.head?
    else getClosestBeeAux maxD minD (dist + 1) rest

/-- `Place.getClosestBee(maxDistance, minDistance = 0)` where `chain`
holds the bee lists of this Place (index 0) and of the Places along
successive `entrance` links. -/
def getClosestBee (chain : List (List BeeS)) (maxD : Nat) (minD : Nat := 0) :
    Option BeeS :=
  getClosestBeeAux maxD minD 0 chain

/-! ## Armor reduction (`Insect.reduceArmor` and the `EaterAnt` override) -/

/-- `Insect.reduceArmor(amount)` for a bee `b` currently held by Place
`p`: armor is decreased by `amount`; if the result is ≤ 0 the bee is
removed from the Place's attacker list (`Place.removeInsect` →
`Place.removeBee`) and the call returns `true`, otherwise the stored bee
is updated and the call returns `false`. -/
def beeReduceArmor (p : PlaceS) (b : BeeS) (amount : Int) : Bool × PlaceS :=
  let b' : BeeS := { b with armorB := b.armorB - amount }
  if b'.armorB ≤ 0 then (true, p.removeBee b')
  else (false, { p with bees := PlaceS.updateBee p.bees b' })

/-- `Insect.reduceArmor(amount)` for the ant in the guard slot of `p`
(guards use the base implementation): armor decreases by `amount`; on a
non-positive result `Place.removeInsect` runs `Place.removeAnt()`, which
clears the guard slot (it is occupied), and the call returns `true`. -/
def reduceArmorGuard (p : PlaceS) (amount : Int) : Bool × PlaceS :=
  match p.guard with
  | Option.none => (false, p)
  | some g =>
    let g' : AntS := { g with armorA := g.armorA - amount }
    if g'.armorA ≤ 0 then (true, ({ p with guard := some g' } : PlaceS).removeAnt.2)
    else (false, { p with guard := some g' })

/-- `Insect.reduceArmor(amount)` for the ant in the regular slot of `p`
(Grower/Thrower/Scuba use the base implementation): armor decreases by
`amount`; on a non-positive result `Place.removeInsect` runs
`Place.removeAnt()` — which clears the guard slot when a guard is
present, and only otherwise clears the regular slot — and returns
`true`. -/
def reduceArmorRegular (p : PlaceS) (amount : Int) : Bool × PlaceS :=
  match p.ant with
  | Option.none => (false, p)
  | some a =>
    let a' : AntS := { a with armorA := a.armorA - amount }
    if a'.armorA ≤ 0 then (true, ({ p with ant := some a' } : PlaceS).removeAnt.2)
    else (false, { p with ant := some a' })

/-- `EaterAnt.reduceArmor(amount)` for the Eater in the regular slot of
`p`: armor decreases by `amount`; if still positive and
`turnsEating == 1` the first stomach bee is regurgitated onto `p` and
the timer is set to 3; if non-positive, the first stomach bee is
regurgitated when `0 < turnsEating <= 2`, and then
`super.reduceArmor(amount)` runs, subtracting `amount` a second time and
removing the Eater through `Place.removeAnt()` when the twice-reduced
armor is ≤ 0. (The empty-stomach regurgitation cases are modelled as
no-ops; in the engine `turnsEating ≥ 1` implies a non-empty stomach.) -/
def eaterReduceArmor (p : PlaceS) (amount : Int) : Bool × PlaceS :=
  match p.ant with
  | Option.none => (false, p)
  | some a =>
    let a1 : AntS := { a with armorA := a.armorA - amount }
    if 0 < a1.armorA then
      if a1.turnsEating = 1 then
        match a1.stomach with
        | [] => (false, { p with ant := some a1 })
        | e :: rest =>
          (false, { p with ant := some { a1 with stomach := rest, turnsEating := 3 },
                           bees := p.bees ++ [e] })
      else (false, { p with ant := some a1 })
    else
      let regurg : AntS × List BeeS :=
        if 0 < a1.turnsEating ∧ a1.turnsEating ≤ 2 then
          match a1.stomach with
          | [] => (a1, p.bees)
          | e :: rest => ({ a1 with stomach := rest }, p.bees ++ [e])
        else (a1, p.bees)
      let a3 : AntS := { regurg.1 with armorA := regurg.1.armorA - amount }
      if a3.armorA ≤ 0 then
        (true, ({ p with ant := some a3, bees := regurg.2 } : PlaceS).removeAnt.2)
      else (false, { p with ant := some a3, bees := regurg.2 })

/-- Dispatches `reduceArmor` for the regular-slot ant of `p`: the
`EaterAnt` override when the occupant is an Eater, the base
implementation otherwise. -/
def dispatchReduceArmorRegular (p : PlaceS) (amount : Int) : Bool × PlaceS :=
  match p.ant with
  | Option.none => (false, p)
  | some a =>
    if a.kind = AntKind.Eater then eaterReduceArmor p amount
    else reduceArmorRegular p amount

/-- Damage aimed at `place.getAnt()` (the bee's sting target): the guard
when present — guards use the base `reduceArmor` — otherwise the regular
occupant through its own `reduceArmor`. -/
def reduceArmorOutward (p : PlaceS) (amount : Int) : Bool × PlaceS :=
  match p.guard with
  | some _ => reduceArmorGuard p amount
  | Option.none => dispatchReduceArmorRegular p amount

/-! ## `EaterAnt.act` -/

/-- `EaterAnt.act()` for the Eater in the regular slot of `p`. With
`turnsEating == 0` it swallows `getClosestBee(0)` — the first bee of its
own Place, there being no further hops at maxDistance 0 — moving it from
the Place to the stomach and setting the timer to 1. Otherwise, once the
timer exceeds 3 the first stomach bee is discarded and the timer resets
to 0, else the timer increments. -/
def eaterAct (p : PlaceS) : PlaceS :=
  match p.ant with
  | Option.none => p
  | some a =>
    if a.turnsEating = 0 then
      match p.bees with
      | [] => p
      | t :: rest =>
        { p with bees := rest,
                 ant := some { a with stomach := a.stomach ++ [t], turnsEating := 1 } }
    else
      if 3 < a.turnsEating then
        match a.stomach with
        | [] => { p with ant := some { a with turnsEating := 0 } }
        | _ :: rest => { p with ant := some { a with stomach := rest, turnsEating := 0 } }
      else { p with ant := some { a with turnsEating := a.turnsEating + 1 } }

/-! ## The BugSpray branch of `ThrowerAnt.act` / `ScubaAnt.act` -/

/-- The `while(target)` loop of the BugSpray branch: `getClosestBee(0)`
yields the first bee of the thrower's own Place; that bee takes 10
damage through `reduceArmor`, being removed from the front of the list
when its armor drops to ≤ 0; the loop repeats until no bee remains. -/
def sprayBeesLoop (l : List BeeS) : List BeeS :=
  match l with
  | [] => []
  | b :: rest =>
    if _h : b.armorB - 10 ≤ 0 then sprayBeesLoop rest
    else sprayBeesLoop ({ b with armorB := b.armorB - 10 } :: rest)
termination_by (l.length, (l.headD default).armorB.toNat)
decreasing_by
  · exact Prod.Lex.left _ _ (Nat.lt_succ_self _)
  · exact Prod.Lex.right _ (by
      simp only [List.headD_cons]
      omega)

/-- The `this.boost === 'BugSpray'` branch of `ThrowerAnt.act()` and
`ScubaAnt.act()` (textually identical in the source), for a
thrower/scuba sitting in the regular slot of `p`: every bee of the Place
is repeatedly dealt 10 damage until expired, then the defender inflicts
10 damage on itself through the base `reduceArmor`. -/
def throwerActBugSpray (p : PlaceS) : PlaceS :=
  let p1 : PlaceS := { p with bees := sprayBeesLoop p.bees }
  (reduceArmorRegular p1 10).2

/-! ## `Bee.act` -/

/-- `Bee.act()` for a bee `b` standing at Place `p`. `isBlocked()` holds
when `p.getAnt()` is defined. Blocked and not cold: sting the outward
defender (its armor drops by the bee's damage through that defender's
`reduceArmor`). Not blocked, armor positive and not stuck: the bee
advances through the `exit` link (reported here by the `Bool` component;
the relocation itself is `exitBeeFrom` on the colony). In every case the
status resets to `undefined`. -/
def beeAct (b : BeeS) (p : PlaceS) : BeeS × PlaceS × Bool :=
  let step : PlaceS × Bool :=
    if p.getAnt ≠ Option.none then
      if b.statusB ≠ BeeStatus.cold then ((reduceArmorOutward p b.damageB).2, false)
      else (p, false)
    else if 0 < b.armorB ∧ b.statusB ≠ BeeStatus.stuck then (p, true)
    else (p, false)
  ({ b with statusB := BeeStatus.none }, step.1, step.2)

/-- Modelled from the spec's words, for comparison with `beeAct` (which
is translated from the source): the claimed attacker state machine in
which the first branch requires a defender present AND status ≠ cold,
and the "otherwise" branch — taken in particular by a blocked cold bee —
moves whenever armor > 0 and status ≠ stuck. -/
def beeActClaim (b : BeeS) (p : PlaceS) : BeeS × PlaceS × Bool :=
  let step : PlaceS × Bool :=
    if p.getAnt ≠ Option.none ∧ b.statusB ≠ BeeStatus.cold then
      ((reduceArmorOutward p b.damageB).2, false)
    else if 0 < b.armorB ∧ b.statusB ≠ BeeStatus.stuck then (p, true)
    else (p, false)
  ({ b with statusB := BeeStatus.none }, step.1, step.2)

/-! ## The colony: grid, food, boosts -/

/-- State of `AntColony`: the food counter, the queen's Place (the
shared sink `queenPlace`, not part of the grid), the grid
`places[tunnel][step]`, and the boost inventory. The `exit` links built
by the constructor are positional: `places[t][0].exit = queenPlace` and
`places[t][s+1].exit = places[t][s]`; `entrance` links run the other
way. -/
structure ColonyS where
  food : Int
  queen : PlaceS
  places : List (List PlaceS)
  boosts : List (String × Int)
deriving DecidableEq, Repr, Inhabited

/-- The Place at grid coordinates `(t, s)` (an empty default out of
range; every use is guarded by range facts). -/
def placeAt (c : ColonyS) (t s : Nat) : PlaceS :=
  (c.places.getD t []).getD s default

/-- Writes the Place at grid coordinates `(t, s)`. -/
def setPlaceAt (c : ColonyS) (t s : Nat) (p : PlaceS) : ColonyS :=
  { c with places := c.places.set t ((c.places.getD t []).set s p) }

/-- The bees of one grid row, in Place order. -/
def rowBees (row : List PlaceS) : List BeeS :=
  (row.map PlaceS.bees).flatten

/-- `AntColony.getAllBees()`: concatenation of every grid Place's bee
list, in grid order (the queen's Place is not scanned). -/
def getAllBees (c : ColonyS) : List BeeS :=
  (c.places.map rowBees).flatten

/-- `Place.exitBee(bee)` for the Place at grid coordinates `(t, s)`: the
bee is removed there and added to the Place reached by the `exit` link —
the queen's sink Place when `s = 0`, else `places[t][s-1]`. -/
def exitBeeFrom (c : ColonyS) (t s : Nat) (b : BeeS) : ColonyS :=
  let c1 := setPlaceAt c t s ((placeAt c t s).removeBee b)
  if s = 0 then { c1 with queen := c1.queen.addBee b }
  else setPlaceAt c1 t (s - 1) ((placeAt c1 t (s - 1)).addBee b)

/-! ## Public deploy / boost operations (`AntGame`, `AntColony`) -/

def undefinedStr : String := "undefined"
def errUnknownAntType : String := "unknown ant type"
def errIllegalLocation : String := "illegal location"
def errNotEnoughFood : String := "not enough food"
def errTunnelOccupied : String := "tunnel already occupied"
def errNoSuchBoost : String := "no such boost"
def errNoAntAtLocation : String := "no Ant at location"
def bugSprayStr : String := "BugSpray"
def nameGrower : String := "grower"
def nameThrower : String := "thrower"
def nameEater : String := "eater"
def nameScuba : String := "scuba"
def nameGuard : String := "guard"

/-- ASCII case mapping of `String.prototype.toLowerCase()` (the
recognized unit names are pure ASCII; non-ASCII case pairs are out of
scope of this model). -/
def toLowerChar (c : Char) : Char :=
  if 'A' ≤ c ∧ c ≤ 'Z' then Char.ofNat (c.toNat + 32) else c

/-- `antType.toLowerCase()` on the character sequence of the string. -/
def lowerAscii (s : List Char) : List Char := s.map toLowerChar

/-- The `switch(antType.toLowerCase())` of `AntGame.deployAnt`. -/
def antTypeForName (s : String) : Option AntKind :=
  if lowerAscii s.data = nameGrower.data then some AntKind.Grower
  else if lowerAscii s.data = nameThrower.data then some AntKind.Thrower
  else if lowerAscii s.data = nameEater.data then some AntKind.Eater
  else if lowerAscii s.data = nameScuba.data then some AntKind.Scuba
  else if lowerAscii s.data = nameGuard.data then some AntKind.Guard
  else Option.none

/-- `String.prototype.split(',')` on the character sequence: never
empty, one (possibly empty) component per comma-separated stretch. -/
def splitOnComma : List Char → List (List Char)
  | [] => [[]]
  | c :: rest =>
    let r := splitOnComma rest
    if c = ',' then [] :: r
    else (c :: r.headD []) :: r.tail

def isDigitChar (c : Char) : Bool := decide ('0' ≤ c ∧ c ≤ '9')

def digitsToNat (l : List Char) : Nat :=
  l.foldl (fun n c => 10 * n + (c.toNat - 48)) 0

/-- JavaScript array element access `arr[key]` with a string key: an
element is produced exactly when the key is the canonical decimal
representation of an index below the array length (non-empty, digits
only, no leading zero); every other key is an ordinary absent property,
yielding `undefined`. (The 2^32-1 upper bound on array indices is out of
scope.) -/
def jsArrayIdx (s : List Char) : Option Nat :=
  if s ≠ [] ∧ s.all isDigitChar ∧ (s.headD '0' ≠ '0' ∨ s = ['0']) then
    some (digitsToNat s)
  else Option.none

/-- Outcome of evaluating `this.colony.getPlaces()[coords[0]][coords[1]]`
inside the `try` block of `AntGame.deployAnt` /
`AntGame.boostAnt`. `throwsNow`: `places[coords[0]]` is `undefined`, so
indexing it throws immediately. `undefinedPlace`: the row exists but the
second index misses, so `place` is `undefined` and the throw is deferred
to the first method call on it. -/
inductive CoordLookup where
  | throwsNow
  | undefinedPlace
  | found (t s : Nat)
deriving DecidableEq, Repr

/-- Parses `"row,col"` with `split(',')` and resolves both JavaScript
array accesses; a missing second component indexes with the string
`"undefined"`. -/
def lookupPlace (places : List (List PlaceS)) (coordStr : String) : CoordLookup :=
  match jsArrayIdx ((splitOnComma coordStr.data).headD undefinedStr.data) with
  | Option.none => CoordLookup.throwsNow
  | some t =>
    match places[t]? with
    | Option.none => CoordLookup.throwsNow
    | some row =>
      match jsArrayIdx ((splitOnComma coordStr.data).getD 1 undefinedStr.data) with
      | Option.none => CoordLookup.undefinedPlace
      | some s => if s < row.length then CoordLookup.found t s
                  else CoordLookup.undefinedPlace

/-- `AntGame.deployAnt(antType, placeCoordinates)` composed with
`AntColony.deployAnt(ant, place)`. An unrecognized type name fails
before the `try` block. Inside it, a bad first coordinate throws at the
indexing itself; with `place` merely `undefined`, `AntColony.deployAnt`
first checks the food supply (`'not enough food'` on a shortage,
untouched by the bad place) and only then calls `place.addAnt`, whose
`TypeError` the `catch` turns into `'illegal location'`. On a valid
Place: food check, then `addAnt`; on success the food counter drops by
the ant's food cost. -/
def deployAnt (g : ColonyS) (antType coordStr : String) : Option String × ColonyS :=
  match antTypeForName antType with
  | Option.none => (some errUnknownAntType, g)
  | some k =>
    let a := newAnt k
    match lookupPlace g.places coordStr with
    | CoordLookup.throwsNow => (some errIllegalLocation, g)
    | CoordLookup.undefinedPlace =>
      if a.foodCost ≤ g.food then (some errIllegalLocation, g)
      else (some errNotEnoughFood, g)
    | CoordLookup.found t s =>
      if a.foodCost ≤ g.food then
        let res := (placeAt g t s).addAnt a
        if res.1 then
          (Option.none, { setPlaceAt g t s res.2 with food := g.food - a.foodCost })
        else (some errTunnelOccupied, g)
      else (some errNotEnoughFood, g)

/-- The slot of `p` that `Place.addAnt` consults for an ant of kind `k`:
the guard slot for a Guard, the regular slot otherwise. -/
def slotFor (p : PlaceS) (k : AntKind) : Option AntS :=
  if k = AntKind.Guard then p.guard else p.ant

/-- Reads `this.boosts[boost]` from the inventory (a JavaScript object:
an absent key yields `undefined`). -/
def lookupBoost (bs : List (String × Int)) (name : String) : Option Int :=
  (bs.find? (fun x => x.1 = name)).map (fun x => x.2)

/-- `ant.setBoost(boost)` applied to `place.getAnt()`: the guard when
present, else the regular occupant. -/
def setBoostOutward (p : PlaceS) (boost : String) : PlaceS :=
  match p.guard with
  | some g => { p with guard := some { g with boost := some boost } }
  | Option.none =>
    match p.ant with
    | some a => { p with ant := some { a with boost := some boost } }
    | Option.none => p

/-- `AntColony.applyBoost(boost, place)`: fails when the inventory entry
is absent or below 1, or when the Place holds no ant; otherwise the
outward ant receives the boost. The inventory itself is returned exactly
as it came in — the method never writes `this.boosts`. -/
def applyBoostAt (boosts : List (String × Int)) (boost : String) (p : PlaceS) :
    Option String × List (String × Int) × PlaceS :=
  match lookupBoost boosts boost with
  | Option.none => (some errNoSuchBoost, boosts, p)
  | some n =>
    if n < 1 then (some errNoSuchBoost, boosts, p)
    else
      match p.getAnt with
      | Option.none => (some errNoAntAtLocation, boosts, p)
      | some _ => (Option.none, boosts, setBoostOutward p boost)

/-! # Theorems -/

/-! ## Helper lemmas (shared) -/

theorem sprayBeesLoop_eq_nil (l : List BeeS) : sprayBeesLoop l = [] := by
  induction l using sprayBeesLoop.induct with
  | case1 => simp [sprayBeesLoop]
  | case2 b rest h ih => simp [sprayBeesLoop, h, ih]
  | case3 b rest h ih => simp [sprayBeesLoop, h, ih]

theorem addAnt_success_iff (p : PlaceS) (a : AntS) :
    (p.addAnt a).1 = true ↔ slotFor p a.kind = Option.none := by
  unfold PlaceS.addAnt slotFor
  by_cases hk : a.kind = AntKind.Guard <;>
    simp only [hk, if_true, if_false, reduceIte] <;>
    first
    | (cases p.guard <;> simp)
    | (cases p.ant <;> simp)

theorem addAnt_fail_frame (p : PlaceS) (a : AntS) :
    (p.addAnt a).1 = false → (p.addAnt a).2 = p := by
  unfold PlaceS.addAnt
  by_cases hk : a.kind = AntKind.Guard <;>
    simp only [hk, if_true, if_false, reduceIte] <;>
    first
    | (cases p.guard <;> simp)
    | (cases p.ant <;> simp)

theorem addAnt_success_state (p : PlaceS) (a : AntS)
    (h : slotFor p a.kind = Option.none) :
    (p.addAnt a).2 = if a.kind = AntKind.Guard then { p with guard := some a }
                     else { p with ant := some a } := by
  obtain ⟨pa, pg, pb⟩ := p
  by_cases hk : a.kind = AntKind.Guard <;> cases pg <;> cases pa <;>
    simp_all [PlaceS.addAnt, slotFor, hk]

/-! ## C7: Place slot discipline -/

/-- C7: each Location holds at most one regular defender (`ant` slot)
and at most one guard (`guard` slot); `Place.addAnt` places a Guard only
into an empty guard slot and any other defender only into an empty
regular slot, returns `false` leaving the Place unchanged when the
corresponding slot is occupied, and never overwrites an occupied
slot. -/
theorem addAnt_slot_discipline (p : PlaceS) (a : AntS) :
    ((p.addAnt a).1 = false → (p.addAnt a).2 = p)
    ∧ (a.kind = AntKind.Guard → p.guard = Option.none →
        p.addAnt a = (true, { p with guard := some a }))
    ∧ (a.kind = AntKind.Guard → ∀ g, p.guard = some g → p.addAnt a = (false, p))
    ∧ (a.kind ≠ AntKind.Guard → p.ant = Option.none →
        p.addAnt a = (true, { p with ant := some a }))
    ∧ (a.kind ≠ AntKind.Guard → ∀ x, p.ant = some x → p.addAnt a = (false, p))
    ∧ (p.addAnt a).2.bees = p.bees := by
  obtain ⟨pa, pg, pb⟩ := p
  by_cases hk : a.kind = AntKind.Guard <;> cases pg <;> cases pa <;>
    simp [PlaceS.addAnt, hk]

theorem addAnt_slot_discipline_witness :
    PlaceS.addAnt { ant := Option.none, guard := Option.none, bees := [] } (newAnt .Guard)
      = (true, { ant := Option.none, guard := some (newAnt .Guard), bees := [] })
    ∧ PlaceS.addAnt { ant := Option.none, guard := some (newAnt .Guard), bees := [] }
        (newAnt .Guard)
      = (false, { ant := Option.none, guard := some (newAnt .Guard), bees := [] }) :=
  ⟨(addAnt_slot_discipline _ _).2.1 (by decide) (by decide),
   (addAnt_slot_discipline _ _).2.2.1 (by decide) (newAnt .Guard) (by decide)⟩

/-! ## C5: the distance query `getClosestBee` -/

theorem getClosestBeeAux_spec (maxD minD : Nat) :
    ∀ (chain : List (List BeeS)) (dist : Nat),
      (∀ b, getClosestBeeAux maxD minD dist chain = some b →
        ∃ k, k < chain.length ∧ dist + k ≤ maxD ∧ minD ≤ dist + k ∧
          (chain.getD k []).head? = some b ∧
          ∀ j, j < k → minD ≤ dist + j → chain.getD j [] = [])
      ∧ (getClosestBeeAux maxD minD dist chain = Option.none ↔
          ∀ k, k < chain.length → minD ≤ dist + k → dist + k ≤ maxD →
            chain.getD k [] = []) := by
  intro chain
  induction chain with
  | nil =>
    intro dist
    refine ⟨fun b hb => by simp [getClosestBeeAux] at hb, ?_⟩
    simp [getClosestBeeAux]
  | cons bs rest ih =>
    intro dist
    by_cases hmax : maxD < dist
    · refine ⟨fun b hb => by simp [getClosestBeeAux, hmax] at hb, ?_⟩
      simp only [getClosestBeeAux, if_pos hmax]
      constructor
      · intro _ k hk h1 h2; omega
      · intro _; trivial
    · by_cases hhit : minD ≤ dist ∧ bs ≠ []
      · constructor
        · intro b hb
          simp only [getClosestBeeAux, if_neg hmax, if_pos hhit] at hb
          exact ⟨0, by simp, by omega, by omega, by simpa using hb, fun j hj _ => by omega⟩
        · simp only [getClosestBeeAux, if_neg hmax, if_pos hhit]
          constructor
          · intro hnone
            exact absurd (List.head?_eq_none_iff.mp hnone) hhit.2
          · intro hall
            have h0 := hall 0 (by simp) (by omega) (by omega)
            simp only [List.getD_cons_zero] at h0
            exact absurd ((List.head?_eq_none_iff).mpr h0) (by
              simp [List.head?_eq_none_iff, hhit.2])
      · have ihr := ih (dist + 1)
        constructor
        · intro b hb
          simp only [getClosestBeeAux, if_neg hmax, if_neg hhit] at hb
          obtain ⟨k, hk, h1, h2, h3, h4⟩ := ihr.1 b hb
          refine ⟨k + 1, by simp; omega, by omega, by omega, by simpa using h3, ?_⟩
          intro j hj hmin
          cases j with
          | zero =>
            simp only [List.getD_cons_zero]
            by_contra hne
            exact hhit ⟨by omega, hne⟩
          | succ j' =>
            have := h4 j' (by omega) (by omega)
            simpa using this
        · simp only [getClosestBeeAux, if_neg hmax, if_neg hhit]
          rw [ihr.2]
          constructor
          · intro hall k hk hmin hmax2
            cases k with
            | zero =>
              simp only [List.getD_cons_zero]
              by_contra hne
              exact hhit ⟨by omega, hne⟩
            | succ k' =>
              have := hall k' (by simp at hk; omega) (by omega) (by omega)
              simpa using this
          · intro hall k hk hmin hmax2
            have := hall (k + 1) (by simp; omega) (by omega) (by omega)
            simpa using this

/-- C5: `getClosestBee(maxDistance, minDistance)` never returns an
attacker at hop distance < `minDistance` or > `maxDistance` along the
`entrance` chain; when it returns an attacker, that attacker is the
first (earliest-arrived) bee of the nearest qualifying hop, every nearer
hop at distance ≥ `minDistance` being empty; and it returns none exactly
when no hop within both bounds (and within the chain) holds a bee. -/
theorem getClosestBee_spec (chain : List (List BeeS)) (maxD minD : Nat) :
    (∀ b, getClosestBee chain maxD minD = some b →
      ∃ k, k < chain.length ∧ k ≤ maxD ∧ minD ≤ k ∧
        (chain.getD k []).head? = some b ∧
        ∀ j, j < k → minD ≤ j → chain.getD j [] = [])
    ∧ (getClosestBee chain maxD minD = Option.none ↔
        ∀ k, k < chain.length → minD ≤ k → k ≤ maxD → chain.getD k [] = []) := by
  have h := getClosestBeeAux_spec maxD minD chain 0
  simpa [getClosestBee] using h

theorem getClosestBee_spec_witness :
    ∃ k, k < ([([] : List BeeS),
               [{ idB := 5, armorB := 1, damageB := 1, statusB := BeeStatus.none }],
               [{ idB := 6, armorB := 2, damageB := 1, statusB := BeeStatus.none }]]).length
      ∧ k ≤ 3 ∧ 2 ≤ k
      ∧ (([([] : List BeeS),
           [{ idB := 5, armorB := 1, damageB := 1, statusB := BeeStatus.none }],
           [{ idB := 6, armorB := 2, damageB := 1, statusB := BeeStatus.none }]].getD k []).head?
          = some { idB := 6, armorB := 2, damageB := 1, statusB := BeeStatus.none })
      ∧ ∀ j, j < k → 2 ≤ j →
          ([([] : List BeeS),
            [{ idB := 5, armorB := 1, damageB := 1, statusB := BeeStatus.none }],
            [{ idB := 6, armorB := 2, damageB := 1, statusB := BeeStatus.none }]].getD j []) = [] :=
  (getClosestBee_spec _ 3 2).1 _ (by decide)

/-! ## C6: the attacker state machine `Bee.act` -/

/-- C6 (amended): one call to `Bee.act()` behaves as follows. If the
current Location holds a defender (guard before regular occupant, via
`getAnt`) and status ≠ cold, the bee reduces that defender's armor by
its damage (through the defender's own `reduceArmor`) and does not
move; if it holds a defender and status = cold, nothing happens and the
bee does not move; if the Location holds no defender, the bee moves
through the `exit` link exactly when its armor is positive and its
status ≠ stuck. In every case the status is reset at the end, so a
stuck or cold status affects exactly one `act()`. (The source differs
from the claim's wording in one point: a blocked cold bee stays put
rather than falling through to the movement branch.) -/
theorem beeAct_state_machine (b : BeeS) (p : PlaceS) :
    (p.getAnt ≠ Option.none → b.statusB ≠ BeeStatus.cold →
      beeAct b p = ({ b with statusB := BeeStatus.none },
                    (reduceArmorOutward p b.damageB).2, false))
    ∧ (p.getAnt ≠ Option.none → b.statusB = BeeStatus.cold →
        beeAct b p = ({ b with statusB := BeeStatus.none }, p, false))
    ∧ (p.getAnt = Option.none → 0 < b.armorB → b.statusB ≠ BeeStatus.stuck →
        beeAct b p = ({ b with statusB := BeeStatus.none }, p, true))
    ∧ (p.getAnt = Option.none → (b.armorB ≤ 0 ∨ b.statusB = BeeStatus.stuck) →
        beeAct b p = ({ b with statusB := BeeStatus.none }, p, false))
    ∧ (beeAct b p).1.statusB = BeeStatus.none
    ∧ (∀ g, p.guard = some g → b.statusB ≠ BeeStatus.cold →
        0 < g.armorA - b.damageB →
        (beeAct b p).2.1
          = { p with guard := some { g with armorA := g.armorA - b.damageB } })
    ∧ (∀ a, p.guard = Option.none → p.ant = some a → a.kind ≠ AntKind.Eater →
        b.statusB ≠ BeeStatus.cold → 0 < a.armorA - b.damageB →
        (beeAct b p).2.1
          = { p with ant := some { a with armorA := a.armorA - b.damageB } }) := by
  refine ⟨?_, ?_, ?_, ?_, rfl, ?_, ?_⟩
  · intro hbl hcold
    simp [beeAct, hbl, hcold]
  · intro hbl hcold
    simp [beeAct, hbl, hcold]
  · intro hbl harm hstuck
    simp [beeAct, hbl, harm, hstuck]
  · intro hbl hdis
    rcases hdis with h | h
    · simp only [beeAct, hbl]
      simp
      intro h0
      omega
    · simp [beeAct, hbl, h]
  · intro g hg hcold harm
    have hbl : p.getAnt ≠ Option.none := by simp [PlaceS.getAnt, hg]
    simp only [beeAct, hbl]
    simp [hcold, reduceArmorOutward, reduceArmorGuard, hg]
    have hcond : ¬(g.armorA ≤ b.damageB) := by omega
    simp [hcond, hbl]
  · intro a hg ha hk hcold harm
    have hbl : p.getAnt ≠ Option.none := by simp [PlaceS.getAnt, hg, ha]
    simp only [beeAct, hbl]
    simp [hcold, reduceArmorOutward, dispatchReduceArmorRegular, reduceArmorRegular,
          hg, ha, hk]
    have hcond : ¬(a.armorA ≤ b.damageB) := by omega
    simp [hcond, hbl]

/-- C6 counterexample: a blocked attacker with cold status, positive
armor and non-stuck status does not move under the source `Bee.act`
(the blocked branch swallows the turn), while the claim's state machine
("otherwise, if armor > 0 and status is not stuck, it moves") would
move it. -/
theorem beeAct_claim_cex :
    (beeAct { idB := 0, armorB := 1, damageB := 1, statusB := BeeStatus.cold }
        { ant := some (newAnt .Thrower), guard := Option.none, bees := [] }).2.2 = false
    ∧ (beeActClaim { idB := 0, armorB := 1, damageB := 1, statusB := BeeStatus.cold }
        { ant := some (newAnt .Thrower), guard := Option.none, bees := [] }).2.2 = true := by
  decide

theorem beeAct_state_machine_witness :
    beeAct { idB := 0, armorB := 2, damageB := 1, statusB := BeeStatus.none }
        { ant := some (newAnt .Thrower), guard := Option.none, bees := [] }
      = ({ idB := 0, armorB := 2, damageB := 1, statusB := BeeStatus.none },
         (reduceArmorOutward
            { ant := some (newAnt .Thrower), guard := Option.none, bees := [] } 1).2,
         false) :=
  (beeAct_state_machine _ _).1 (by decide) (by decide)

/-! ## C2: the BugSpray branch destroys the attackers and the sprayer -/

/-- C2 (amended): with the BugSpray boost active, one `act()` of a
Thrower/Scuba destroys every attacker of its own Location — each bee is
repeatedly dealt 10 damage until it expires — and then the defender
inflicts 10 damage on itself through the base `reduceArmor`. When the
Location holds no guard (and the defender's armor is at most 10, as it
always is in reachable states, armor starting at 1 and never
increasing), that self-damage removes the defender itself; when a guard
shares the Location, `Place.removeAnt` clears the guard slot instead and
the defender survives in its slot with armor reduced by 10. -/
theorem bugSpray_spec (p : PlaceS) (a : AntS)
    (ha : p.ant = some a) (harm : a.armorA ≤ 10) :
    (throwerActBugSpray p).bees = []
    ∧ (p.guard = Option.none → (throwerActBugSpray p).ant = Option.none)
    ∧ (∀ g, p.guard = some g →
        (throwerActBugSpray p).guard = Option.none
        ∧ (throwerActBugSpray p).ant = some { a with armorA := a.armorA - 10 }) := by
  obtain ⟨pa, pg, pb⟩ := p
  simp only at ha
  subst ha
  unfold throwerActBugSpray
  rw [sprayBeesLoop_eq_nil]
  have hcond : a.armorA - 10 ≤ 0 := by omega
  cases pg with
  | none => simp [reduceArmorRegular, PlaceS.removeAnt, hcond]
  | some g => simp [reduceArmorRegular, PlaceS.removeAnt, hcond]

/-- C2 counterexample: a Thrower with BugSpray at a Location that also
holds a guard. The spray destroys the attackers, but the final
self-damage removes the guard (`Place.removeAnt` clears the guard slot
first); the Thrower itself stays on the board at armor −9, so the claim
"removes the defender itself … regardless of whether the defender's
Location also holds a guard" fails. -/
theorem bugSpray_claim_cex :
    throwerActBugSpray
        { ant := some { newAnt .Thrower with boost := some bugSprayStr },
          guard := some (newAnt .Guard),
          bees := [{ idB := 0, armorB := 3, damageB := 1, statusB := BeeStatus.none }] }
      = { ant := some { kind := AntKind.Thrower, armorA := -9, foodCost := 4,
                        boost := some bugSprayStr, turnsEating := 0, stomach := [] },
          guard := Option.none, bees := [] } := by
  unfold throwerActBugSpray
  rw [sprayBeesLoop_eq_nil]
  decide

theorem bugSpray_spec_witness :
    (throwerActBugSpray
        { ant := some { newAnt .Thrower with boost := some bugSprayStr },
          guard := Option.none,
          bees := [{ idB := 0, armorB := 25, damageB := 1, statusB := BeeStatus.none }] }).ant
      = Option.none :=
  (bugSpray_spec _ _ rfl (by decide)).2.1 rfl

/-! ## C3: Eater digestion -/

/-- C3: the Eater's digestion state machine. With timer 0 and an
attacker at distance 0, `act()` moves that attacker from the board into
the holding slot and sets the timer to 1; four consecutive undisturbed
turns after a swallow walk the timer 1→2→3→4 and on the fourth turn
destroy the held attacker (it reappears nowhere) and reset the timer to
0; non-lethal damage while the timer is 1 regurgitates the held
attacker unharmed onto the Eater's Location and forces the timer to 3;
lethal damage while the timer is in {1,2} regurgitates the held
attacker onto the Location before the Eater is removed through the base
removal contract. -/
theorem eater_digestion_spec (p : PlaceS) (a : AntS) (e : BeeS) (amount : Int) :
    (∀ t rest, p.ant = some a → a.turnsEating = 0 → p.bees = t :: rest →
      eaterAct p = { p with
        bees := rest,
        ant := some { a with
          stomach := a.stomach ++ [t],
          turnsEating := 1 } })
    ∧ (p.ant = some a → a.turnsEating = 1 → a.stomach = [e] → p.bees = [] →
        (eaterAct p).ant = some { a with turnsEating := 2 }
        ∧ (eaterAct (eaterAct p)).ant = some { a with turnsEating := 3 }
        ∧ (eaterAct (eaterAct (eaterAct p))).ant = some { a with turnsEating := 4 }
        ∧ eaterAct (eaterAct (eaterAct (eaterAct p)))
            = { p with ant := some { a with stomach := [], turnsEating := 0 } })
    ∧ (p.ant = some a → a.turnsEating = 1 → ∀ rest, a.stomach = e :: rest →
        0 < a.armorA - amount →
        eaterReduceArmor p amount
          = (false, { p with
              ant := some { a with
                armorA := a.armorA - amount,
                stomach := rest,
                turnsEating := 3 },
              bees := p.bees ++ [e] }))
    ∧ (p.ant = some a → p.guard = Option.none →
        (a.turnsEating = 1 ∨ a.turnsEating = 2) → ∀ rest, a.stomach = e :: rest →
        a.armorA - amount ≤ 0 → 0 < amount →
        eaterReduceArmor p amount
          = (true, { p with ant := Option.none, bees := p.bees ++ [e] })) := by
  refine ⟨?_, ?_, ?_, ?_⟩
  · intro t rest hpa hte hbees
    simp [eaterAct, hpa, hte, hbees]
  · intro hpa hte hst hbees
    obtain ⟨pa, pg, pb⟩ := p
    simp only at hpa hbees
    subst hpa
    subst hbees
    have h1 : eaterAct { ant := some a, guard := pg, bees := [] }
        = { ant := some { a with turnsEating := 2 }, guard := pg, bees := [] } := by
      simp [eaterAct, hte]
    have h2 : eaterAct { ant := some { a with turnsEating := 2 }, guard := pg, bees := [] }
        = { ant := some { a with turnsEating := 3 }, guard := pg, bees := ([] : List BeeS) } := by
      simp [eaterAct]
    have h3 : eaterAct { ant := some { a with turnsEating := 3 }, guard := pg, bees := [] }
        = { ant := some { a with turnsEating := 4 }, guard := pg, bees := ([] : List BeeS) } := by
      simp [eaterAct]
    have h4 : eaterAct { ant := some { a with turnsEating := 4 }, guard := pg, bees := [] }
        = { ant := some { a with stomach := [], turnsEating := 0 }, guard := pg,
            bees := ([] : List BeeS) } := by
      simp [eaterAct, hst]
    rw [h1, h2, h3, h4]
    simp
  · intro hpa hte rest hst harm
    have hc : ¬(a.armorA - amount ≤ 0) := by omega
    simp [eaterReduceArmor, hpa, hte, hst, hc, harm]
  · intro hpa hg hte rest hst harm hpos
    obtain ⟨pa, pgg, pb⟩ := p
    simp only at hpa hg
    subst hpa
    subst hg
    have hc1 : ¬(0 < a.armorA - amount) := by omega
    have hc2 : a.armorA - amount - amount ≤ 0 := by omega
    rcases hte with h | h <;>
      simp [eaterReduceArmor, hc1, hc2, h, hst, PlaceS.removeAnt]

theorem eater_digestion_spec_witness :
    eaterAct { ant := some (newAnt .Eater), guard := Option.none,
               bees := [{ idB := 7, armorB := 3, damageB := 1, statusB := BeeStatus.none }] }
      = { ant := some { kind := AntKind.Eater, armorA := 2, foodCost := 4,
                        boost := Option.none, turnsEating := 1,
                        stomach := [{ idB := 7, armorB := 3, damageB := 1,
                                      statusB := BeeStatus.none }] },
          guard := Option.none, bees := [] } :=
  (eater_digestion_spec _ (newAnt .Eater) default 0).1
    { idB := 7, armorB := 3, damageB := 1, statusB := BeeStatus.none } [] rfl rfl rfl

/-! ## C1: the armor-reduction and removal contract -/

theorem removeFirstById_no_match (l : List BeeS) (i : Nat)
    (h : l.countP (fun x => x.idB == i) ≤ 1) :
    ∀ x ∈ PlaceS.removeFirstById l i, x.idB ≠ i := by
  induction l with
  | nil => simp [PlaceS.removeFirstById]
  | cons y ys ih =>
    by_cases hy : y.idB = i
    · simp only [PlaceS.removeFirstById, if_pos hy]
      intro x hx hxi
      have hcc : (y :: ys).countP (fun x => x.idB == i)
          = ys.countP (fun x => x.idB == i) + 1 := by
        simp [List.countP_cons, hy]
      have hc : ys.countP (fun x => x.idB == i) = 0 := by omega
      have := List.countP_eq_zero.mp hc x hx
      simp [hxi] at this
    · simp only [PlaceS.removeFirstById, if_neg hy]
      intro x hx
      rcases List.mem_cons.mp hx with rfl | hx'
      · exact hy
      · have hcc : (y :: ys).countP (fun x => x.idB == i)
            = ys.countP (fun x => x.idB == i) := by
          simp [List.countP_cons, hy]
        exact ih (by omega) x hx'

/-- C1 counterexample: a guarded Eater at armor 2 takes 2 damage. The
override subtracts 2, then defers to the base contract, which subtracts
2 again (armor −2, not 0 — "subtracts exactly amount" fails), and the
removal runs `Place.removeAnt`, which clears the guard slot instead of
the Eater's own slot, so the expired unit itself stays on the board. -/
theorem reduceArmor_claim_cex :
    eaterReduceArmor
        { ant := some (newAnt .Eater), guard := some (newAnt .Guard), bees := [] } 2
      = (true, { ant := some { kind := AntKind.Eater, armorA := -2, foodCost := 4,
                               boost := Option.none, turnsEating := 0, stomach := [] },
                 guard := Option.none, bees := [] }) := by
  decide

/-- C1 (amended): the armor-reduction contract as implemented. For an
attacker, `reduceArmor(amount)` subtracts exactly `amount`, reports
expired (`true`) exactly when the result is ≤ 0, removing the bee from
the Place's attacker list, and otherwise leaves the bee in the list with
the reduced armor. For a defender, the base implementation subtracts
exactly `amount` and on a non-positive result removes through
`Place.removeAnt`, which clears the guard slot when a guard is present
and only otherwise the dying defender's own regular slot. The Eater's
override behaves the same on survival (single subtraction, timer-1
regurgitation aside, covered by the digestion theorem) but in the lethal
case subtracts `amount` a second time inside the deferred base call
before the same removal runs. -/
theorem reduceArmor_contract (p : PlaceS) (amount : Int) :
    (∀ b : BeeS,
      ((beeReduceArmor p b amount).1 = true ↔ b.armorB - amount ≤ 0)
      ∧ (b.armorB - amount ≤ 0 → p.bees.countP (fun x => x.idB == b.idB) ≤ 1 →
          ∀ x ∈ (beeReduceArmor p b amount).2.bees, x.idB ≠ b.idB)
      ∧ (0 < b.armorB - amount → b ∈ p.bees →
          { b with armorB := b.armorB - amount } ∈ (beeReduceArmor p b amount).2.bees))
    ∧ (∀ g, p.guard = some g →
        ((reduceArmorGuard p amount).1 = true ↔ g.armorA - amount ≤ 0)
        ∧ (g.armorA - amount ≤ 0 →
            (reduceArmorGuard p amount).2 = { p with guard := Option.none })
        ∧ (0 < g.armorA - amount →
            (reduceArmorGuard p amount).2
              = { p with guard := some { g with armorA := g.armorA - amount } }))
    ∧ (∀ a, p.ant = some a →
        ((reduceArmorRegular p amount).1 = true ↔ a.armorA - amount ≤ 0)
        ∧ (a.armorA - amount ≤ 0 → p.guard = Option.none →
            (reduceArmorRegular p amount).2 = { p with ant := Option.none })
        ∧ (a.armorA - amount ≤ 0 → ∀ g, p.guard = some g →
            (reduceArmorRegular p amount).2
              = { p with
                  ant := some { a with armorA := a.armorA - amount },
                  guard := Option.none })
        ∧ (0 < a.armorA - amount →
            (reduceArmorRegular p amount).2
              = { p with ant := some { a with armorA := a.armorA - amount } }))
    ∧ (∀ a, p.ant = some a → 0 < a.armorA - amount → a.turnsEating ≠ 1 →
        eaterReduceArmor p amount
          = (false, { p with ant := some { a with armorA := a.armorA - amount } }))
    ∧ (∀ a, p.ant = some a → a.armorA - amount ≤ 0 → 0 < amount →
        ((a.turnsEating = 0 ∨ 2 < a.turnsEating) →
          eaterReduceArmor p amount
            = (true, ({ p with
                ant := some { a with armorA := a.armorA - amount - amount } }
                  : PlaceS).removeAnt.2))
        ∧ (∀ e rest, (a.turnsEating = 1 ∨ a.turnsEating = 2) → a.stomach = e :: rest →
            eaterReduceArmor p amount
              = (true, ({ p with
                  ant := some { a with
                    armorA := a.armorA - amount - amount,
                    stomach := rest },
                  bees := p.bees ++ [e] } : PlaceS).removeAnt.2))) := by
  refine ⟨?_, ?_, ?_, ?_, ?_⟩
  · intro b
    refine ⟨?_, ?_, ?_⟩
    · by_cases hb : b.armorB - amount ≤ 0 <;> simp [beeReduceArmor, hb]
    · intro hb hcount
      simp only [beeReduceArmor]
      rw [if_pos (show b.armorB - amount ≤ 0 from hb)]
      exact removeFirstById_no_match p.bees b.idB hcount
    · intro hb hmem
      have hb' : ¬({ b with armorB := b.armorB - amount } : BeeS).armorB ≤ 0 := by
        simp; omega
      simp only [beeReduceArmor, if_neg hb']
      exact List.mem_map.mpr ⟨b, hmem, by simp⟩
  · intro g hg
    obtain ⟨pa, pg, pb⟩ := p
    simp only at hg
    subst hg
    refine ⟨?_, ?_, ?_⟩
    · by_cases hga : g.armorA - amount ≤ 0 <;>
        simp [reduceArmorGuard, PlaceS.removeAnt, hga]
    · intro hga
      simp [reduceArmorGuard, PlaceS.removeAnt, hga]
    · intro hga
      have : ¬(g.armorA - amount ≤ 0) := by omega
      simp [reduceArmorGuard, this]
  · intro a ha
    obtain ⟨pa, pg, pb⟩ := p
    simp only at ha
    subst ha
    refine ⟨?_, ?_, ?_, ?_⟩
    · by_cases haa : a.armorA - amount ≤ 0 <;>
        cases pg <;> simp [reduceArmorRegular, PlaceS.removeAnt, haa]
    · intro haa hgn
      simp only at hgn
      subst hgn
      simp [reduceArmorRegular, PlaceS.removeAnt, haa]
    · intro haa g hgs
      simp only at hgs
      subst hgs
      simp [reduceArmorRegular, PlaceS.removeAnt, haa]
    · intro haa
      have : ¬(a.armorA - amount ≤ 0) := by omega
      simp [reduceArmorRegular, this]
  · intro a ha hpos hte
    have hcnot : ¬(a.armorA - amount ≤ 0) := by omega
    simp only [eaterReduceArmor, ha]
    rw [if_pos (show 0 < a.armorA - amount from hpos)]
    simp [hte]
  · intro a ha hlethal hpos
    have hc1 : ¬(0 < a.armorA - amount) := by omega
    have hc2 : a.armorA - amount - amount ≤ 0 := by omega
    constructor
    · intro hte
      have hte' : ¬(0 < a.turnsEating ∧ a.turnsEating ≤ 2) := by omega
      simp [eaterReduceArmor, ha, hc1, hc2, hte']
    · intro e rest hte hst
      rcases hte with h | h <;>
        simp [eaterReduceArmor, ha, hc1, hc2, h, hst]

theorem reduceArmor_contract_witness :
    (reduceArmorRegular
        { ant := some (newAnt .Thrower), guard := Option.none, bees := [] } 5).2
      = { ant := Option.none, guard := Option.none, bees := [] } :=
  ((reduceArmor_contract _ 5).2.2.1 (newAnt .Thrower) rfl).2.1 (by decide) rfl

/-! ## C9: boost application never decrements the inventory -/

/-- C9: with availability ≥ 1 for the named boost and a defender at the
Location, `applyBoost` succeeds, assigns the boost to the outward
defender (`getAnt`), and leaves every count in the boost inventory
unchanged — the availability count is never decremented on successful
application, so one found boost can be applied arbitrarily many
times. -/
theorem applyBoost_no_decrement (bs : List (String × Int)) (name : String)
    (p : PlaceS) (n : Int)
    (hn : lookupBoost bs name = some n) (h1 : 1 ≤ n)
    (ha : p.getAnt ≠ Option.none) :
    applyBoostAt bs name p = (Option.none, bs, setBoostOutward p name)
    ∧ (applyBoostAt bs name p).2.1 = bs
    ∧ (setBoostOutward p name).getAnt
        = p.getAnt.map (fun a => { a with boost := some name }) := by
  have hlt : ¬(n < 1) := by omega
  obtain ⟨pa, pg, pb⟩ := p
  cases pg with
  | some g =>
    simp [applyBoostAt, hn, hlt, setBoostOutward, PlaceS.getAnt]
  | none =>
    cases pa with
    | none => simp [PlaceS.getAnt] at ha
    | some a =>
      simp [applyBoostAt, hn, hlt, setBoostOutward, PlaceS.getAnt]

theorem applyBoost_no_decrement_witness :
    (applyBoostAt [("FlyingLeaf", 1)] "FlyingLeaf"
        { ant := some (newAnt .Thrower), guard := Option.none, bees := [] }).2.1
      = [("FlyingLeaf", 1)] :=
  (applyBoost_no_decrement _ _ _ 1 (by decide) (by decide) (by decide)).2.1

/-! ## C8 and C10: the deploy operation -/

theorem lookupPlace_found (places : List (List PlaceS)) (c : String) (t s : Nat)
    (h : lookupPlace places c = CoordLookup.found t s) :
    t < places.length ∧ s < (places.getD t []).length := by
  unfold lookupPlace at h
  split at h
  · simp at h
  · rename_i t0 hj0
    split at h
    · simp at h
    · rename_i row hr
      split at h
      · simp at h
      · rename_i s0 hj1
        split at h
        · rename_i hs0
          injection h with h1 h2
          subst h1
          subst h2
          obtain ⟨hlen, hel⟩ := List.getElem?_eq_some_iff.mp hr
          refine ⟨hlen, ?_⟩
          rw [List.getD_eq_getElem?_getD, List.getElem?_eq_getElem hlen, hel]
          simpa using hs0
        · simp at h

theorem placeAt_set_self (c : ColonyS) (t s : Nat) (p : PlaceS)
    (ht : t < c.places.length) (hs : s < (c.places.getD t []).length) :
    placeAt (setPlaceAt c t s p) t s = p := by
  unfold placeAt setPlaceAt
  have h1 : (c.places.set t ((c.places.getD t []).set s p)).getD t []
      = (c.places.getD t []).set s p := by
    rw [List.getD_eq_getElem?_getD, List.getElem?_set_self ht, Option.getD_some]
  rw [h1, List.getD_eq_getElem?_getD, List.getElem?_set_self hs, Option.getD_some]

theorem placeAt_set_other (c : ColonyS) (t s : Nat) (p : PlaceS) (t' s' : Nat)
    (h : t' ≠ t ∨ s' ≠ s) :
    placeAt (setPlaceAt c t s p) t' s' = placeAt c t' s' := by
  unfold placeAt setPlaceAt
  by_cases htt : t' = t
  · subst htt
    rcases h with h | h
    · exact absurd rfl h
    · by_cases ht : t' < c.places.length
      · have h1 : (c.places.set t' ((c.places.getD t' []).set s p)).getD t' []
            = (c.places.getD t' []).set s p := by
          rw [List.getD_eq_getElem?_getD, List.getElem?_set_self ht, Option.getD_some]
        rw [h1]
        rw [List.getD_eq_getElem?_getD, List.getElem?_set_ne (Ne.symm h),
            ← List.getD_eq_getElem?_getD]
      · rw [List.set_eq_of_length_le (by omega)]
  · have h1 : (c.places.set t ((c.places.getD t []).set s p)).getD t' []
        = c.places.getD t' [] := by
      rw [List.getD_eq_getElem?_getD, List.getElem?_set_ne (by omega),
          ← List.getD_eq_getElem?_getD]
    rw [h1]

theorem newAnt_kind (k : AntKind) : (newAnt k).kind = k := by
  cases k <;> rfl

theorem slotFor_addAnt_success (p : PlaceS) (a : AntS)
    (h : slotFor p a.kind = Option.none) :
    slotFor (p.addAnt a).2 a.kind = some a := by
  rw [addAnt_success_state p a h]
  by_cases hk : a.kind = AntKind.Guard <;> simp [slotFor, hk]

/-- C8: for every type-name string and every coordinate string, the
public deploy operation returns a result drawn from the closed taxonomy
— no exception escapes (each `TypeError` raised inside the `try` block
is normalized by the `catch` to `'illegal location'`) — and returns the
no-error indicator (`undefined`) exactly when the defender is
successfully placed: a recognized type name, a coordinate string
resolving to a grid Place, sufficient food, an empty target slot, and
then the new defender occupies that slot in the resulting state. -/
theorem deployAnt_taxonomy (g : ColonyS) (antType coordStr : String) :
    ((deployAnt g antType coordStr).1 = Option.none
      ∨ (deployAnt g antType coordStr).1 = some errUnknownAntType
      ∨ (deployAnt g antType coordStr).1 = some errIllegalLocation
      ∨ (deployAnt g antType coordStr).1 = some errNotEnoughFood
      ∨ (deployAnt g antType coordStr).1 = some errTunnelOccupied)
    ∧ ((deployAnt g antType coordStr).1 = Option.none ↔
        ∃ k t s, antTypeForName antType = some k
          ∧ lookupPlace g.places coordStr = CoordLookup.found t s
          ∧ (newAnt k).foodCost ≤ g.food
          ∧ slotFor (placeAt g t s) k = Option.none)
    ∧ ((deployAnt g antType coordStr).1 = Option.none →
        ∀ k t s, antTypeForName antType = some k →
          lookupPlace g.places coordStr = CoordLookup.found t s →
          slotFor (placeAt (deployAnt g antType coordStr).2 t s) k
            = some (newAnt k)) := by
  cases hk : antTypeForName antType with
  | none => simp [deployAnt, hk]
  | some k =>
    cases hl : lookupPlace g.places coordStr with
    | throwsNow => simp [deployAnt, hk, hl]
    | undefinedPlace =>
      by_cases hf : (newAnt k).foodCost ≤ g.food <;> simp [deployAnt, hk, hl, hf]
    | found t s =>
      by_cases hf : (newAnt k).foodCost ≤ g.food
      · by_cases hsucc : ((placeAt g t s).addAnt (newAnt k)).1 = true
        · have hslot : slotFor (placeAt g t s) k = Option.none := by
            have := (addAnt_success_iff (placeAt g t s) (newAnt k)).mp hsucc
            simpa [newAnt_kind] using this
          refine ⟨?_, ?_, ?_⟩
          · left; simp [deployAnt, hk, hl, hf, hsucc]
          · constructor
            · intro _
              exact ⟨k, t, s, rfl, rfl, hf, hslot⟩
            · intro _
              simp [deployAnt, hk, hl, hf, hsucc]
          · intro _ k' t' s' hk' hl'
            injection hk' with hkk
            subst hkk
            injection hl' with htt hss
            subst htt
            subst hss
            have hres2 : (deployAnt g antType coordStr).2
                = { setPlaceAt g t s ((placeAt g t s).addAnt (newAnt k)).2 with
                    food := g.food - (newAnt k).foodCost } := by
              simp [deployAnt, hk, hl, hf, hsucc]
            rw [hres2]
            obtain ⟨ht, hs⟩ := lookupPlace_found g.places coordStr t s hl
            have hpl : placeAt { setPlaceAt g t s ((placeAt g t s).addAnt (newAnt k)).2 with
                food := g.food - (newAnt k).foodCost } t s
                = placeAt (setPlaceAt g t s ((placeAt g t s).addAnt (newAnt k)).2) t s := rfl
            rw [hpl, placeAt_set_self g t s _ ht hs]
            have := slotFor_addAnt_success (placeAt g t s) (newAnt k)
              (by simpa [newAnt_kind] using hslot)
            simpa [newAnt_kind] using this
        · refine ⟨?_, ?_, ?_⟩
          · right; right; right; right
            simp [deployAnt, hk, hl, hf, hsucc]
          · constructor
            · intro hres
              simp [deployAnt, hk, hl, hf, hsucc] at hres
            · rintro ⟨k', t', s', hk', hl', hf', hslot'⟩
              injection hk' with hkk
              subst hkk
              injection hl' with htt hss
              subst htt
              subst hss
              exact absurd ((addAnt_success_iff _ _).mpr
                (by simpa [newAnt_kind] using hslot')) hsucc
          · intro hres
            simp [deployAnt, hk, hl, hf, hsucc] at hres
      · refine ⟨?_, ?_, ?_⟩
        · right; right; right; left
          simp [deployAnt, hk, hl, hf]
        · constructor
          · intro hres
            simp [deployAnt, hk, hl, hf] at hres
          · rintro ⟨k', t', s', hk', hl', hf', hslot'⟩
            injection hk' with hkk
            subst hkk
            exact absurd hf' hf
        · intro hres
          simp [deployAnt, hk, hl, hf] at hres

theorem deployAnt_taxonomy_witness :
    slotFor
      (placeAt
        (deployAnt
          { food := 10, queen := { ant := Option.none, guard := Option.none, bees := [] },
            places := [[{ ant := Option.none, guard := Option.none, bees := [] }]],
            boosts := [] } "thrower" "0,0").2 0 0)
      AntKind.Thrower
      = some (newAnt AntKind.Thrower) :=
  (deployAnt_taxonomy _ _ _).2.2 (by decide) AntKind.Thrower 0 0 (by decide) (by decide)

/-- C10: deployment is atomic on failure — every deploy call returning
an error leaves the colony state (food counter, queen, boost inventory,
every Location's occupancy) exactly as it was; and on success the food
counter drops by exactly the deployed defender's food cost while the
grid changes only at the target Place. -/
theorem deployAnt_atomic (g : ColonyS) (antType coordStr : String) :
    ((deployAnt g antType coordStr).1 ≠ Option.none →
      (deployAnt g antType coordStr).2 = g)
    ∧ ((deployAnt g antType coordStr).1 = Option.none →
        ∃ k t s, antTypeForName antType = some k
          ∧ lookupPlace g.places coordStr = CoordLookup.found t s
          ∧ (deployAnt g antType coordStr).2.food = g.food - (newAnt k).foodCost
          ∧ (deployAnt g antType coordStr).2.queen = g.queen
          ∧ (deployAnt g antType coordStr).2.boosts = g.boosts
          ∧ ∀ t' s', (t' ≠ t ∨ s' ≠ s) →
              placeAt (deployAnt g antType coordStr).2 t' s' = placeAt g t' s') := by
  cases hk : antTypeForName antType with
  | none => simp [deployAnt, hk]
  | some k =>
    cases hl : lookupPlace g.places coordStr with
    | throwsNow => simp [deployAnt, hk, hl]
    | undefinedPlace =>
      by_cases hf : (newAnt k).foodCost ≤ g.food <;> simp [deployAnt, hk, hl, hf]
    | found t s =>
      by_cases hf : (newAnt k).foodCost ≤ g.food
      · by_cases hsucc : ((placeAt g t s).addAnt (newAnt k)).1 = true
        · constructor
          · intro hne
            exact absurd (by simp [deployAnt, hk, hl, hf, hsucc]) hne
          · intro _
            have hres2 : (deployAnt g antType coordStr).2
                = { setPlaceAt g t s ((placeAt g t s).addAnt (newAnt k)).2 with
                    food := g.food - (newAnt k).foodCost } := by
              simp [deployAnt, hk, hl, hf, hsucc]
            refine ⟨k, t, s, rfl, rfl, ?_, ?_, ?_, ?_⟩
            · rw [hres2]
            · rw [hres2]; rfl
            · rw [hres2]; rfl
            · intro t' s' hts
              rw [hres2]
              have hfr : placeAt { setPlaceAt g t s ((placeAt g t s).addAnt (newAnt k)).2 with
                  food := g.food - (newAnt k).foodCost } t' s'
                  = placeAt (setPlaceAt g t s ((placeAt g t s).addAnt (newAnt k)).2) t' s' :=
                rfl
              rw [hfr, placeAt_set_other g t s _ t' s' hts]
        · constructor
          · intro _
            simp [deployAnt, hk, hl, hf, hsucc, addAnt_fail_frame]
          · intro hres
            simp [deployAnt, hk, hl, hf, hsucc] at hres
      · constructor
        · intro _
          simp [deployAnt, hk, hl, hf]
        · intro hres
          simp [deployAnt, hk, hl, hf] at hres

theorem deployAnt_atomic_witness :
    (deployAnt
        { food := 3, queen := { ant := Option.none, guard := Option.none, bees := [] },
          places := [[{ ant := Option.none, guard := Option.none, bees := [] }]],
          boosts := [] } "thrower" "0,0").2
      = { food := 3, queen := { ant := Option.none, guard := Option.none, bees := [] },
          places := [[{ ant := Option.none, guard := Option.none, bees := [] }]],
          boosts := [] } :=
  (deployAnt_atomic _ _ _).1 (by decide)

/-! ## C4: an attacker advancing into the sink leaves the grid -/

theorem countP_flatten_set (q : BeeS → Bool) :
    ∀ (L : List (List BeeS)) (n : Nat) (v : List BeeS), n < L.length →
      ((L.set n v).flatten.countP q) + ((L.getD n []).countP q)
        = (L.flatten.countP q) + (v.countP q) := by
  intro L
  induction L with
  | nil => intro n v h; simp at h
  | cons a L ih =>
    intro n v h
    cases n with
    | zero =>
      simp only [List.set_cons_zero, List.flatten_cons, List.countP_append,
                 List.getD_cons_zero]
      omega
    | succ n =>
      simp only [List.set_cons_succ, List.flatten_cons, List.countP_append,
                 List.getD_cons_succ]
      have := ih n v (by simpa using h)
      omega

theorem countP_removeFirstById (l : List BeeS) (i : Nat)
    (hx : ∃ x ∈ l, x.idB = i) :
    (PlaceS.removeFirstById l i).countP (fun x => x.idB == i) + 1
      = l.countP (fun x => x.idB == i) := by
  induction l with
  | nil => simp at hx
  | cons y ys ih =>
    by_cases hy : y.idB = i
    · simp only [PlaceS.removeFirstById, if_pos hy]
      simp [List.countP_cons, hy]
    · simp only [PlaceS.removeFirstById, if_neg hy]
      have hx' : ∃ x ∈ ys, x.idB = i := by
        rcases hx with ⟨x, hmem, hxi⟩
        rcases List.mem_cons.mp hmem with rfl | hm
        · exact absurd hxi hy
        · exact ⟨x, hm, hxi⟩
      have := ih hx'
      simp only [List.countP_cons]
      simp [hy]
      omega

/-- C4: an unblocked, non-stuck attacker at the queen-most grid Place
`(t, 0)` advances through the `exit` link into the terminal sink
(`queenPlace`, which is not part of the grid). After the advance it is
present at no Location of the grid and is no longer counted among the
attackers on the board (`getAllBees` scans the grid only); the bee now
sits in the sink's own list. The identity hypothesis says the bee object
occurs on the board only once, which the engine maintains. -/
theorem bee_exit_sink_leaves_board (c : ColonyS) (t : Nat) (b : BeeS)
    (ht : t < c.places.length)
    (hs : 0 < (c.places.getD t []).length)
    (hb : b ∈ (placeAt c t 0).bees)
    (huniq : (getAllBees c).countP (fun x => x.idB == b.idB) ≤ 1) :
    (∀ x ∈ getAllBees (exitBeeFrom c t 0 b), x.idB ≠ b.idB)
    ∧ b ∈ (exitBeeFrom c t 0 b).queen.bees := by
  have hexit : exitBeeFrom c t 0 b
      = { setPlaceAt c t 0 ((placeAt c t 0).removeBee b) with
          queen := c.queen.addBee b } := by
    simp [exitBeeFrom, setPlaceAt]
  constructor
  · have hgab : getAllBees (exitBeeFrom c t 0 b)
        = ((c.places.set t ((c.places.getD t []).set 0
            ((placeAt c t 0).removeBee b))).map rowBees).flatten := by
      rw [hexit]; rfl
    have hmlen : t < (c.places.map rowBees).length := by simpa using ht
    have eq1 := countP_flatten_set (fun x => x.idB == b.idB)
      (c.places.map rowBees) t
      (rowBees ((c.places.getD t []).set 0 ((placeAt c t 0).removeBee b))) hmlen
    rw [← List.map_set] at eq1
    have hgdmap : (c.places.map rowBees).getD t [] = rowBees (c.places.getD t []) := by
      rw [List.getD_eq_getElem?_getD, List.getElem?_map, List.getElem?_eq_getElem ht,
          List.getD_eq_getElem _ _ ht]
      rfl
    rw [hgdmap] at eq1
    have hmlen2 : (0 : Nat) < ((c.places.getD t []).map PlaceS.bees).length := by
      simpa using hs
    have eq2 := countP_flatten_set (fun x => x.idB == b.idB)
      ((c.places.getD t []).map PlaceS.bees) 0
      (((placeAt c t 0).removeBee b).bees) hmlen2
    rw [← List.map_set] at eq2
    have hgdmap2 : ((c.places.getD t []).map PlaceS.bees).getD 0 []
        = (placeAt c t 0).bees := by
      unfold placeAt
      rw [List.getD_eq_getElem?_getD, List.getElem?_map, List.getElem?_eq_getElem hs,
          List.getD_eq_getElem _ _ hs]
      rfl
    rw [hgdmap2] at eq2
    have eq3 := countP_removeFirstById (placeAt c t 0).bees b.idB ⟨b, hb, rfl⟩
    have hcount0 :
        (getAllBees (exitBeeFrom c t 0 b)).countP (fun x => x.idB == b.idB) = 0 := by
      rw [hgab]
      simp only [getAllBees, rowBees, PlaceS.removeBee] at eq1 eq2 huniq ⊢
      omega
    intro x hx
    have hnm := List.countP_eq_zero.mp hcount0 x hx
    simpa using hnm
  · rw [hexit]
    simp [PlaceS.addBee]

theorem bee_exit_sink_leaves_board_witness :
    (∀ x ∈ getAllBees (exitBeeFrom
        { food := 0, queen := { ant := Option.none, guard := Option.none, bees := [] },
          places := [[{ ant := Option.none, guard := Option.none,
                        bees := [{ idB := 9, armorB := 1, damageB := 1,
                                   statusB := BeeStatus.none }] }]],
          boosts := [] } 0 0
        { idB := 9, armorB := 1, damageB := 1, statusB := BeeStatus.none }),
      x.idB ≠ 9)
    ∧ ({ idB := 9, armorB := 1, damageB := 1, statusB := BeeStatus.none } : BeeS)
        ∈ (exitBeeFrom
            { food := 0, queen := { ant := Option.none, guard := Option.none, bees := [] },
              places := [[{ ant := Option.none, guard := Option.none,
                            bees := [{ idB := 9, armorB := 1, damageB := 1,
                                       statusB := BeeStatus.none }] }]],
              boosts := [] } 0 0
            { idB := 9, armorB := 1, damageB := 1, statusB := BeeStatus.none }).queen.bees :=
  bee_exit_sink_leaves_board _ 0 _ (by decide) (by decide) (by decide) (by decide)
